import Mathlib

/-!
Shallow embedding of the job-orchestration client `easyibmq.py`
(backend directory rendering, backend selection, session management,
job submission/monitoring, and fault-tolerant result collection),
together with theorems checking the specification's claims.
-/

namespace EasyIbmq

open List

/-- Histogram result of one circuit: a mapping outcome-label → count,
embedded as an association list (models the Python `dict(results.get_counts(i))`). -/
abbrev Hist := List (String × Nat)

/-- Models Python `str.endswith(suffix)`: the suffix's characters are a
suffix of the string's characters. -/
def pyEndsWith (s suffix : String) : Bool :=
  suffix.data.isSuffixOf s.data

/-- Models Python `s.split('\n')[0]`: the characters of `s` up to (excluding)
the first newline. `str.split` always returns a non-empty list whose first
element is exactly this prefix. -/
def firstLine (s : String) : String :=
  ⟨s.data.takeWhile (fun c => c ≠ '\n')⟩

/-- Models Python `' '.join(parts)`. -/
def joinSpace : List String → String
  | [] => ""
  | [x] => x
  | x :: y :: xs => x ++ " " ++ joinSpace (y :: xs)

/-- Lexicographic order on strings, the order Python's `sorted` uses on `str`
(both compare character sequences pointwise by code point). -/
def lexLe (a b : String) : Prop := a ≤ b

/-- Comparison by length, the key order of `sorted(…, key=lambda x: len(x))`. -/
def lenLe (a b : String) : Prop := a.length ≤ b.length

instance : DecidableRel lexLe := fun a b => inferInstanceAs (Decidable (a ≤ b))

instance : DecidableRel lenLe := fun a b => inferInstanceAs (Decidable (a.length ≤ b.length))

/-- Models line 49 of the source: `sorted(sorted(basis_gates), key=lambda x: len(x))`.
Python's `sorted` is a stable sort, so each `sorted` call is embedded as
`List.insertionSort` (a stable sort): first lexicographically, then stably by length. -/
def sortedGates (gates : List String) : List String :=
  (gates.insertionSort lexLe).insertionSort lenLe

/-- Models `' '.join(sorted(sorted(backend.configuration().basis_gates), key=lambda x: len(x)))`. -/
def renderGates (gates : List String) : String :=
  joinSpace (sortedGates gates)

/-- A remote backend as observed by `_get_backend_info`:
`name()`, `status().pending_jobs`, `properties()` (which is `None` for
simulators, so that accessing `.qubits` raises `AttributeError` — embedded as
`none`), and `configuration().basis_gates`. -/
structure Backend where
  name : String
  pendingJobs : Nat
  propQubits : Option Nat
  basisGates : List String

/-- The f-string on line 54: `f"{name}\n\n{pending_jobs} queued\n{qubit_count} qubits\n{gates}"`. -/
def renderInfo (name : String) (pendingJobs : Nat) (qubitCount gates : String) : String :=
  name ++ "\n\n" ++ toString pendingJobs ++ " queued\n" ++ qubitCount ++ " qubits\n" ++ gates

/-- Embedding of `_get_backend_info` (lines 44–54). The `try` block fails with
`AttributeError` exactly when `backend.properties()` is `None` (a simulator), in
which case the `except` branch sets `qubit_count = "simulated"` and `gates = ''`. -/
def _get_backend_info (b : Backend) : String :=
  match b.propQubits with
  | some q => renderInfo b.name b.pendingJobs (toString q) (renderGates b.basisGates)
  | none => renderInfo b.name b.pendingJobs "simulated" ""

/-- The rendered choice list of `query_backend_name` (lines 70–74): the mapped
backend infos, filtered by `not x.endswith('\nsimulated qubits')` when
`hide_simulated` is set. -/
def directoryChoices (backends : List Backend) (hideSimulated : Bool) : List String :=
  let choices := backends.map _get_backend_info
  if hideSimulated then
    choices.filter (fun x => !(pyEndsWith x "\nsimulated qubits"))
  else
    choices

/-- Embedding of `query_backend_name` (lines 57–83). The interactive
`easygui.buttonbox` call is the collaborator `chooser`, returning the chosen
descriptor text or `none` when the operator declines. Both `raise LookupError`
sites are embedded as `Except.error` carrying the exact message. -/
def query_backend_name (backends : List Backend) (hideSimulated : Bool)
    (chooser : List String → Option String) : Except String String :=
  if (directoryChoices backends hideSimulated).length = 0 then
    .error "No active backend was found"
  else
    match chooser (directoryChoices backends hideSimulated) with
    | none => .error "You must choose a backend"
    | some choice => .ok (firstLine choice)

/-- The two fixed remediation lines of the `RuntimeError` message (lines 123–124). -/
def registerStep : String := "1. register in quantum-computing.ibm.com/"

/-- The second remediation line of the `RuntimeError` message. -/
def saveAccountStep : String := "2. Execute once IBMQ.save_account(\"token\") on your machine"

/-- The fixed text appended after `str(e)` in the `RuntimeError` (lines 121–124). -/
def remediationTail : String :=
  "\nFailed to authenticate IBMQ account. This might solve:\n"
    ++ registerStep ++ "\n" ++ saveAccountStep

/-- The full `RuntimeError` message raised on `IBMQAccountError`:
`f'{str(e)}\n Failed to authenticate …'` (lines 121–124). -/
def remediationMessage (e : String) : String := e ++ remediationTail

/-- Embedding of the session-establishment step of `execute_jobs`
(lines 116–124). `loadAccount` is the collaborator `IBMQ.load_account()`
(its success value or the `IBMQAccountError` message), `active` is
`IBMQ.active_account()`. Returns the resulting session state (or the
raised `RuntimeError` message) together with the number of authentication
calls performed (0 or 1). -/
def ensureSession (loadAccount : Except String String) (active : Option String)
    (forceReload : Bool) : Except String (Option String) × Nat :=
  if forceReload || active.isNone then
    match loadAccount with
    | .ok a => (.ok (some a), 1)
    | .error e => (.error (remediationMessage e), 1)
  else
    (.ok active, 0)

/-- Total number of authentication calls made by two consecutive
session-establishment steps with `force_account_reload = False`
(the second runs only if the first did not raise, as in two consecutive
`execute_jobs` calls). -/
def twoCallsAuthCount (loadAccount : Except String String) (active : Option String) : Nat :=
  match ensureSession loadAccount active false with
  | (.ok active', n) => n + (ensureSession loadAccount active' false).2
  | (.error _, n) => n

/-- Embedding of the monitoring step (lines 139–140): the list of job handles
`job_monitor` is invoked on. `if monitor and num_of_jobs >= 1:
job_monitor(job_set.jobs()[-1])`. -/
def monitoredJobs {α : Type} (monitor : Bool) (jobs : List α) : List α :=
  if monitor = true ∧ 1 ≤ jobs.length then jobs.getLast?.toList else []

/-- Outcome of `results.get_counts(i)` for one index: a histogram, the
`IBMQManagedResultDataNotAvailable` exception (caught by the loop), or any
other exception (a systemic failure, which propagates). -/
inductive FetchOutcome where
  | counts (h : Hist)
  | notAvailable
  | systemicError
deriving DecidableEq

/-- The diagnostic printed on line 149:
`f'\rResult data not found in experiment {i}         '`. -/
def notFoundMsg (i : Nat) : String :=
  "\rResult data not found in experiment " ++ toString i ++ "         "

/-- Embedding of the collection loop of `execute_jobs` (lines 143–150),
processing the given indices in order. Returns the accumulated histogram
list together with the emitted diagnostic lines, or `Except.error` when a
systemic (uncaught) exception propagates out of the loop. -/
def collectIdx (getCounts : Nat → FetchOutcome) : List Nat → Except Unit (List (Option Hist) × List String)
  | [] => .ok ([], [])
  | i :: rest =>
    match getCounts i with
    | .systemicError => .error ()
    | .counts h =>
      match collectIdx getCounts rest with
      | .error e => .error e
      | .ok (hists, diags) => .ok (some h :: hists, diags)
    | .notAvailable =>
      match collectIdx getCounts rest with
      | .error e => .error e
      | .ok (hists, diags) => .ok (none :: hists, notFoundMsg i :: diags)

/-- The collection loop `for i in range(len(circuits))` (lines 144–149). -/
def collectHists (getCounts : Nat → FetchOutcome) (n : Nat) :
    Except Unit (List (Option Hist) × List String) :=
  collectIdx getCounts (List.range n)

/-- Errors `execute_jobs` can raise: the authentication `RuntimeError`
(lines 121–124), a `LookupError` (from `query_backend_name` or
`_get_backend_by_name`), or a systemic job/result failure. -/
inductive ExecError where
  | runtimeError (msg : String)
  | lookupError (msg : String)
  | jobError
deriving DecidableEq

/-- The collaborators `execute_jobs` interacts with: `IBMQ.active_account()`,
`IBMQ.load_account()`, the interactive chooser, the provider's backend
directory and name lookup, per-circuit transpilation (`transpile` maps a list
of circuits one-to-one), and indexed result retrieval `results.get_counts`. -/
structure ExecEnv (C : Type) where
  activeAccount : Option String
  loadAccount : Except String String
  chooser : List String → Option String
  backendsList : List Backend
  getBackend : String → Option Backend
  transpileOne : Backend → C → C
  getCounts : Nat → FetchOutcome

/-- Line 113–114: a single `QuantumCircuit` argument is wrapped into a
one-element list. -/
def normalizeCircuits {C : Type} : C ⊕ List C → List C
  | .inl c => [c]
  | .inr cs => cs

/-- The session-establishment stage of `execute_jobs` (lines 116–124):
authenticate when forced or when no account is active; on `IBMQAccountError`
raise the `RuntimeError` with the remediation message. -/
def authStep {C : Type} (env : ExecEnv C) (forceReload : Bool) : Except ExecError Unit :=
  if forceReload || env.activeAccount.isNone then
    match env.loadAccount with
    | .ok _ => .ok ()
    | .error e => .error (.runtimeError (remediationMessage e))
  else
    .ok ()

/-- The backend-name resolution stage of `execute_jobs` (lines 126–127):
use the supplied name, or query the operator. -/
def nameStep {C : Type} (env : ExecEnv C) (backendName : Option String)
    (hideSimulated : Bool) : Except ExecError String :=
  match backendName with
  | some n => .ok n
  | none =>
    match query_backend_name env.backendsList hideSimulated env.chooser with
    | .ok n => .ok n
    | .error e => .error (.lookupError e)

/-- Embedding of `_get_backend_by_name` (lines 86–92), raising `LookupError`
when the provider does not know the name. -/
def backendStep {C : Type} (env : ExecEnv C) (name : String) : Except ExecError Backend :=
  match env.getBackend name with
  | none => .error (.lookupError ("No such backend name: " ++ name))
  | some b => .ok b

/-- Embedding of `execute_jobs` (lines 95–150): wrap a single circuit,
establish the session, resolve the backend (querying the operator when no
name is given), transpile (one-to-one), submit, and collect the per-circuit
histograms (monitoring is purely observational and modelled by
`monitoredJobs`). -/
def execute_jobs {C : Type} (env : ExecEnv C) (circuits : C ⊕ List C)
    (backendName : Option String) (hideSimulated forceReload : Bool) :
    Except ExecError (List (Option Hist) × List String) :=
  match authStep env forceReload with
  | .error er => .error er
  | .ok _ =>
    match nameStep env backendName hideSimulated with
    | .error er => .error er
    | .ok name =>
      match backendStep env name with
      | .error er => .error er
      | .ok backend =>
        match collectHists env.getCounts
            ((normalizeCircuits circuits).map (env.transpileOne backend)).length with
        | .error _ => .error .jobError
        | .ok r => .ok r

/-- The entry the collection loop appends for one fetch outcome: the histogram
dict, or `None` (the unavailable sentinel). -/
def fetchToOption : FetchOutcome → Option Hist
  | .counts h => some h
  | .notAvailable => none
  | .systemicError => none

/-- The length-then-lexicographic order: `a` precedes `b` when it is strictly
shorter, or has equal length and is lexicographically no larger. This is the
order in which `sorted(sorted(gates), key=len)` lists the capability tags. -/
def lenLexLe (a b : String) : Prop :=
  a.length < b.length ∨ (a.length = b.length ∧ a ≤ b)

instance : IsTotal String lexLe := ⟨fun a b => le_total a b⟩

instance : IsTrans String lexLe := ⟨fun _ _ _ h₁ h₂ => le_trans h₁ h₂⟩

instance : IsTotal String lenLe := ⟨fun a b => Nat.le_total a.length b.length⟩

instance : IsTrans String lenLe := ⟨fun _ _ _ h₁ h₂ => Nat.le_trans h₁ h₂⟩

/-- A concrete simulated backend: `properties()` is `None`, so capability
retrieval hits the `AttributeError` branch. -/
def simBackend : Backend := ⟨"ibmq_qasm_simulator", 4, none, []⟩

/-- A concrete hardware backend with capability metadata. -/
def realBackend : Backend := ⟨"ibmq_belem", 7, some 5, ["cx"]⟩

/-- A concrete collaborator environment over `Nat`-labelled circuits, used to
exercise `execute_jobs` on closed inputs. -/
def envNat : ExecEnv Nat where
  activeAccount := some "acct"
  loadAccount := .ok "acct"
  chooser := fun _ => none
  backendsList := []
  getBackend := fun _ => some realBackend
  transpileOne := fun _ c => c
  getCounts := fun _ => .counts [("00", 1)]

/-! ### Helper lemmas -/

/-- The collection loop appends exactly one entry per processed index. -/
theorem collectIdx_ok_length {g : Nat → FetchOutcome} :
    ∀ {l : List Nat} {hs : List (Option Hist)} {ds : List String},
      collectIdx g l = .ok (hs, ds) → hs.length = l.length := by
  intro l
  induction l with
  | nil =>
    intro hs ds h
    simp only [collectIdx, Except.ok.injEq, Prod.mk.injEq] at h
    obtain ⟨h1, -⟩ := h
    simp [← h1]
  | cons i rest ih =>
    intro hs ds h
    unfold collectIdx at h
    cases hg : g i <;> rw [hg] at h
    · cases hr : collectIdx g rest <;> rw [hr] at h
      · cases h
      · rename_i p
        obtain ⟨hs', ds'⟩ := p
        simp only [Except.ok.injEq, Prod.mk.injEq] at h
        obtain ⟨h1, -⟩ := h
        simp [← h1, ih hr]
    · cases hr : collectIdx g rest <;> rw [hr] at h
      · cases h
      · rename_i p
        obtain ⟨hs', ds'⟩ := p
        simp only [Except.ok.injEq, Prod.mk.injEq] at h
        obtain ⟨h1, -⟩ := h
        simp [← h1, ih hr]
    · cases h

/-- When no index raises a systemic error, the collection loop succeeds and
produces one entry per index plus one diagnostic per unavailable index. -/
theorem collectIdx_eq_of_no_systemic {g : Nat → FetchOutcome} :
    ∀ {l : List Nat}, (∀ j ∈ l, g j ≠ .systemicError) →
      collectIdx g l = .ok (l.map (fun j => fetchToOption (g j)),
        (l.filter (fun j => decide (g j = .notAvailable))).map notFoundMsg) := by
  intro l
  induction l with
  | nil => intro _; simp [collectIdx]
  | cons i rest ih =>
    intro h
    have hi := h i (List.mem_cons_self i rest)
    have hrest := ih (fun j hj => h j (List.mem_cons_of_mem i hj))
    unfold collectIdx
    cases hg : g i with
    | counts h => simp [hrest, fetchToOption, hg]
    | notAvailable => simp [hrest, fetchToOption, hg]
    | systemicError => exact absurd hg hi

/-- A successful collection over `n` indices has exactly `n` entries. -/
theorem collectHists_ok_length {g : Nat → FetchOutcome} {n : Nat}
    {hs : List (Option Hist)} {ds : List String}
    (h : collectHists g n = .ok (hs, ds)) : hs.length = n := by
  have := collectIdx_ok_length h
  simpa using this

/-- Filtering `range n` for equality with `i < n` keeps exactly `[i]`. -/
theorem range_filter_eq {n i : Nat} (h : i < n) :
    (List.range n).filter (fun j => decide (j = i)) = [i] := by
  induction n with
  | zero => omega
  | succ n ih =>
    rw [List.range_succ, List.filter_append]
    by_cases hi : i = n
    · subst hi
      have h1 : (List.range i).filter (fun j => decide (j = i)) = [] := by
        rw [List.filter_eq_nil_iff]
        intro j hj
        have := List.mem_range.mp hj
        simp
        omega
      simp [h1]
    · have hlt : i < n := by omega
      rw [ih hlt]
      have : ([n].filter (fun j => decide (j = i))) = [] := by
        simp
        omega
      simp [this]

/-- Any successful run of `execute_jobs` returns one histogram record per
input circuit. -/
theorem execute_jobs_ok_length {C : Type} (env : ExecEnv C) (circuits : C ⊕ List C)
    (backendName : Option String) (hideSimulated forceReload : Bool)
    (r : List (Option Hist) × List String)
    (h : execute_jobs env circuits backendName hideSimulated forceReload = .ok r) :
    r.1.length = (normalizeCircuits circuits).length := by
  unfold execute_jobs at h
  split at h
  · simp at h
  · split at h
    · simp at h
    · split at h
      · simp at h
      · split at h
        · simp at h
        · rename_i r' heq
          obtain ⟨hs, ds⟩ := r'
          simp only [Except.ok.injEq] at h
          subst h
          have := collectHists_ok_length heq
          simpa using this

/-- Stability of the length sort, phrased on length classes: restricting the
length-sorted list to the strings of one fixed length gives back the
corresponding restriction of the input, in input order. -/
theorem filter_len_insertionSort (s : List String) (k : Nat) :
    (s.insertionSort lenLe).filter (fun x => x.length == k)
      = s.filter (fun x => x.length == k) := by
  have hperm : List.Perm (s.insertionSort lenLe) s := List.perm_insertionSort lenLe s
  have hfp : (s.filter (fun x => x.length == k)).Pairwise lenLe := by
    rw [List.pairwise_iff_forall_sublist]
    intro a b hab
    have ha : a ∈ s.filter (fun x => x.length == k) := hab.subset (by simp)
    have hb : b ∈ s.filter (fun x => x.length == k) := hab.subset (by simp)
    have ha' := (List.mem_filter.mp ha).2
    have hb' := (List.mem_filter.mp hb).2
    have hak : a.length = k := by simpa using ha'
    have hbk : b.length = k := by simpa using hb'
    exact le_of_eq (hak.trans hbk.symm)
  have h1 : s.filter (fun x => x.length == k) <+ s.insertionSort lenLe :=
    List.sublist_insertionSort hfp (List.filter_sublist s)
  have h2 : s.filter (fun x => x.length == k)
      <+ (s.insertionSort lenLe).filter (fun x => x.length == k) := by
    have h3 := h1.filter (fun x => x.length == k)
    have h4 : (s.filter (fun x => x.length == k)).filter (fun x => x.length == k)
        = s.filter (fun x => x.length == k) := by
      rw [List.filter_filter]
      congr 1
      funext x
      simp [Bool.and_self]
    rwa [h4] at h3
  have hlen : ((s.insertionSort lenLe).filter (fun x => x.length == k)).length
      = (s.filter (fun x => x.length == k)).length :=
    (hperm.filter _).length_eq
  exact (h2.eq_of_length hlen.symm).symm

/-! ### Claim theorems -/

/-- C4: session establishment is idempotent under reuse — if an authenticated
session already exists and `force_reload` is false, no authentication call is
performed, and two consecutive calls with `force_reload = False` perform
authentication at most once. -/
theorem c4_session_reuse_idempotent (loadAccount : Except String String)
    (active : Option String) :
    (∀ a, active = some a → ensureSession loadAccount active false = (.ok active, 0))
    ∧ twoCallsAuthCount loadAccount active ≤ 1 := by
  constructor
  · intro a ha
    subst ha
    simp [ensureSession]
  · cases active with
    | some a => simp [twoCallsAuthCount, ensureSession]
    | none =>
      cases loadAccount with
      | ok a => simp [twoCallsAuthCount, ensureSession]
      | error e => simp [twoCallsAuthCount, ensureSession]

/-- Witness for C4 at a concrete environment: with an existing session no
authentication happens, and two consecutive calls starting from no session
authenticate at most once. -/
theorem c4_witness :
    ensureSession (.ok "token") (some "acct") false = (.ok (some "acct"), 0)
    ∧ twoCallsAuthCount (.ok "token") none ≤ 1 :=
  ⟨(c4_session_reuse_idempotent (.ok "token") (some "acct")).1 "acct" rfl,
    (c4_session_reuse_idempotent (.ok "token") none).2⟩

/-- C5: whenever authentication is performed and fails, the raised error
carries the remediation message — both the register step and the
persist-a-credential step verbatim — on top of the transport error text. -/
theorem c5_auth_error_remediation (e : String) (active : Option String)
    (forceReload : Bool) (h : (forceReload || active.isNone) = true) :
    ensureSession (.error e) active forceReload = (.error (remediationMessage e), 1)
    ∧ registerStep.data <:+: (remediationMessage e).data
    ∧ saveAccountStep.data <:+: (remediationMessage e).data := by
  refine ⟨by simp [ensureSession, h], ?_, ?_⟩
  · refine ⟨(e ++ "\nFailed to authenticate IBMQ account. This might solve:\n").data,
      ("\n" ++ saveAccountStep).data, ?_⟩
    simp [remediationMessage, remediationTail]
  · refine ⟨(e ++ "\nFailed to authenticate IBMQ account. This might solve:\n"
      ++ registerStep ++ "\n").data, [], ?_⟩
    simp [remediationMessage, remediationTail]

/-- Witness for C5 at a concrete failing credential error. -/
theorem c5_witness :
    ensureSession (.error "401 unauthorized") none true
        = (.error (remediationMessage "401 unauthorized"), 1)
    ∧ registerStep.data <:+: (remediationMessage "401 unauthorized").data
    ∧ saveAccountStep.data <:+: (remediationMessage "401 unauthorized").data :=
  c5_auth_error_remediation "401 unauthorized" none true rfl

/-- C7: a backend whose capability-metadata retrieval raises the
missing-attribute condition degrades to the simulated branch — the rendered
entry uses the literal marker `"simulated"` as qubit count and an empty
capability-tag string — instead of propagating the error. -/
theorem c7_attribute_error_degrades (b : Backend) (h : b.propQubits = none) :
    _get_backend_info b = renderInfo b.name b.pendingJobs "simulated" "" := by
  simp [_get_backend_info, h]

/-- Witness for C7 at the concrete simulated backend. -/
theorem c7_witness :
    simBackend.propQubits = none
    ∧ _get_backend_info simBackend
        = renderInfo simBackend.name simBackend.pendingJobs "simulated" "" :=
  ⟨rfl, c7_attribute_error_degrades simBackend rfl⟩

/-- C9: the job monitor is invoked on at most one handle — exactly the last
handle of the batch when monitoring is enabled and the batch is non-empty —
never on an earlier handle, and not at all on a zero-job batch. -/
theorem c9_monitor_only_last {α : Type} (monitor : Bool) (jobs : List α) :
    (monitoredJobs monitor jobs).length ≤ 1
    ∧ monitoredJobs monitor ([] : List α) = []
    ∧ (∀ h : jobs ≠ [], monitoredJobs true jobs = [jobs.getLast h])
    ∧ (∀ j ∈ monitoredJobs monitor jobs, ∀ h : jobs ≠ [], j = jobs.getLast h) := by
  refine ⟨?_, ?_, ?_, ?_⟩
  · unfold monitoredJobs
    split
    · cases hj : jobs.getLast? <;> simp
    · simp
  · simp [monitoredJobs]
  · intro h
    have hlen : 1 ≤ jobs.length := List.length_pos.mpr h
    simp [monitoredJobs, hlen, List.getLast?_eq_getLast jobs h]
  · intro j hj h
    unfold monitoredJobs at hj
    split at hj
    · rw [List.getLast?_eq_getLast jobs h] at hj
      simpa using hj
    · simp at hj

/-- Witness for C9 at a concrete two-job batch: only the last handle is
monitored, and a zero-job batch monitors nothing. -/
theorem c9_witness :
    monitoredJobs true [10, 20] = [20] ∧ monitoredJobs true ([] : List Nat) = [] := by
  have h1 := (c9_monitor_only_last true [10, 20]).2.2.1 (by simp)
  have h2 := (c9_monitor_only_last true ([] : List Nat)).2.1
  exact ⟨by simpa using h1, h2⟩

/-- C6: backend selection raises a `LookupError`-class error exactly when the
(optionally filtered) directory is empty or the operator declines to choose;
otherwise it returns the first line of the chosen descriptor. -/
theorem c6_selection_errors (backends : List Backend) (hideSimulated : Bool)
    (chooser : List String → Option String) :
    ((∃ e, query_backend_name backends hideSimulated chooser = .error e) ↔
      (directoryChoices backends hideSimulated = []
        ∨ chooser (directoryChoices backends hideSimulated) = none))
    ∧ (∀ c, directoryChoices backends hideSimulated ≠ [] →
        chooser (directoryChoices backends hideSimulated) = some c →
        query_backend_name backends hideSimulated chooser = .ok (firstLine c)) := by
  unfold query_backend_name
  by_cases hlen : (directoryChoices backends hideSimulated).length = 0
  · have hnil : directoryChoices backends hideSimulated = [] := List.length_eq_zero.mp hlen
    refine ⟨?_, ?_⟩
    · simp [hlen, hnil]
    · intro c hne
      exact absurd hnil hne
  · have hne : directoryChoices backends hideSimulated ≠ [] := by
      intro hnil
      exact hlen (by simp [hnil])
    cases hch : chooser (directoryChoices backends hideSimulated) with
    | none =>
      refine ⟨?_, ?_⟩
      · simp [hlen, hne]
      · intro c _ hc
        exact absurd hc (by simp)
    | some c =>
      refine ⟨?_, ?_⟩
      · simp [hlen, hne]
      · intro c' _ hc
        have hcc : c = c' := by injection hc
        subst hcc
        simp [hlen]

/-- Helper fact: the first line of the concrete hardware descriptor is its
backend name. -/
theorem firstLine_realBackend : firstLine (_get_backend_info realBackend) = "ibmq_belem" := by
  decide

/-- Witness for C6: a one-entry directory with a chooser that picks the first
descriptor resolves to that backend's name (its descriptor's first line). -/
theorem c6_witness :
    query_backend_name [realBackend] false (fun l => l[0]?) = .ok "ibmq_belem" := by
  have h := (c6_selection_errors [realBackend] false (fun l => l[0]?)).2
    (_get_backend_info realBackend) (by decide) (by decide)
  rw [h, firstLine_realBackend]

/-- C2 (counter-evidence): the `hide_simulated` filter is dead code. A
simulated backend's rendered descriptor ends with `"simulated qubits\n"` —
the gates line is empty, so a final newline follows the marker — hence
`endswith('\nsimulated qubits')` is false for it. For a directory of one
hardware and one simulated backend, `hide_simulated=True` presents both
descriptors (the claim expects exactly 1), and the selection can return the
simulated backend's name. -/
theorem c2_hide_simulated_filter_dead :
    pyEndsWith (_get_backend_info simBackend) "simulated qubits\n" = true
    ∧ pyEndsWith (_get_backend_info simBackend) "\nsimulated qubits" = false
    ∧ directoryChoices [realBackend, simBackend] true
        = directoryChoices [realBackend, simBackend] false
    ∧ (directoryChoices [realBackend, simBackend] true).length = 2
    ∧ query_backend_name [realBackend, simBackend] true (fun l => l[1]?)
        = .ok "ibmq_qasm_simulator" := by
  refine ⟨by decide, by decide, by decide, by decide, rfl⟩

/-- C1: every successful run of `execute_jobs` returns exactly one result
record (histogram or unavailable sentinel) per submitted work item, however
many per-item results were unavailable. -/
theorem c1_one_record_per_item {C : Type} (env : ExecEnv C) (circuits : C ⊕ List C)
    (backendName : Option String) (hideSimulated forceReload : Bool)
    (r : List (Option Hist) × List String)
    (h : execute_jobs env circuits backendName hideSimulated forceReload = .ok r) :
    r.1.length = (normalizeCircuits circuits).length :=
  execute_jobs_ok_length env circuits backendName hideSimulated forceReload r h

/-- Witness for C1: a concrete two-circuit run returns two records. -/
theorem c1_witness :
    execute_jobs envNat (.inr [0, 1]) (some "ibmq_belem") false false
        = .ok ([some [("00", 1)], some [("00", 1)]], [])
    ∧ ([some [("00", 1)], some [("00", 1)]],
        ([] : List String)).1.length
      = (normalizeCircuits (Sum.inr [0, 1] : Nat ⊕ List Nat)).length :=
  ⟨rfl, c1_one_record_per_item envNat (.inr [0, 1]) (some "ibmq_belem")
    false false ([some [("00", 1)], some [("00", 1)]], []) rfl⟩

/-- C10: the submission entry point accepts a single work item by wrapping it
into a one-element list — the run is identical to submitting the one-element
list, and a successful single-item call returns exactly one record. -/
theorem c10_single_item_wrapped {C : Type} (env : ExecEnv C) (c : C)
    (backendName : Option String) (hideSimulated forceReload : Bool) :
    execute_jobs env (.inl c) backendName hideSimulated forceReload
      = execute_jobs env (.inr [c]) backendName hideSimulated forceReload
    ∧ ∀ r, execute_jobs env (.inl c) backendName hideSimulated forceReload = .ok r →
        r.1.length = 1 := by
  refine ⟨rfl, ?_⟩
  intro r h
  exact execute_jobs_ok_length env (.inl c) backendName hideSimulated forceReload r h

/-- Witness for C10: a concrete single-circuit call equals the one-element-list
call and returns exactly one record. -/
theorem c10_witness :
    execute_jobs envNat (.inl 7) (some "ibmq_belem") false false
      = execute_jobs envNat (.inr [7]) (some "ibmq_belem") false false
    ∧ ([some [("00", 1)]], ([] : List String)).1.length = 1 :=
  ⟨(c10_single_item_wrapped envNat 7 (some "ibmq_belem") false false).1,
    (c10_single_item_wrapped envNat 7 (some "ibmq_belem") false false).2
      ([some [("00", 1)]], []) rfl⟩

/-- C3: if exactly one index `i` among `n ≥ 2` items is reported unavailable,
collection does not raise: the `i`-th record is the unavailable sentinel, one
diagnostic line naming index `i` is emitted, and every other record `j ≠ i`
equals the fetched histogram for item `j`. -/
theorem c3_single_unavailable_contained (g : Nat → FetchOutcome) (histf : Nat → Hist)
    (n i : Nat) (hn : 2 ≤ n) (hi : i < n) (hna : g i = .notAvailable)
    (hok : ∀ j, j < n → j ≠ i → g j = .counts (histf j)) :
    ∃ hs, collectHists g n = .ok (hs, [notFoundMsg i])
      ∧ hs.length = n
      ∧ hs[i]? = some none
      ∧ ∀ j, j < n → j ≠ i → hs[j]? = some (some (histf j)) := by
  have hns : ∀ j ∈ List.range n, g j ≠ FetchOutcome.systemicError := by
    intro j hj
    have hjn := List.mem_range.mp hj
    by_cases hji : j = i
    · subst hji
      rw [hna]
      simp
    · rw [hok j hjn hji]
      simp
  have hcollect := collectIdx_eq_of_no_systemic (l := List.range n) hns
  have hfilter : (List.range n).filter (fun j => decide (g j = FetchOutcome.notAvailable))
      = [i] := by
    have hcongr : (List.range n).filter (fun j => decide (g j = FetchOutcome.notAvailable))
        = (List.range n).filter (fun j => decide (j = i)) := by
      apply List.filter_congr
      intro j hj
      have hjn := List.mem_range.mp hj
      by_cases hji : j = i
      · subst hji
        simp [hna]
      · rw [hok j hjn hji]
        simp [hji]
    rw [hcongr]
    exact range_filter_eq hi
  refine ⟨(List.range n).map (fun j => fetchToOption (g j)), ?_, ?_, ?_, ?_⟩
  · rw [collectHists, hcollect, hfilter]
    simp
  · simp
  · rw [List.getElem?_map, List.getElem?_range hi]
    simp [hna, fetchToOption]
  · intro j hj hji
    rw [List.getElem?_map, List.getElem?_range hj]
    simp [hok j hj hji, fetchToOption]

/-- Witness for C3: three items with index 1 unavailable — the run succeeds,
record 1 is the sentinel, one diagnostic names index 1, and records 0 and 2
hold the fetched histograms. -/
theorem c3_witness :
    ∃ hs, collectHists (fun j => if j = 1 then FetchOutcome.notAvailable
        else .counts [("00", 5)]) 3 = .ok (hs, [notFoundMsg 1])
      ∧ hs.length = 3
      ∧ hs[1]? = some none
      ∧ ∀ j, j < 3 → j ≠ 1 → hs[j]? = some (some [("00", 5)]) :=
  c3_single_unavailable_contained _ (fun _ => [("00", 5)]) 3 1 (by decide) (by decide)
    (by decide) (by intro j hj hji; simp [hji])

/-- C8: the rendered capability-tag list is the input tags sorted first
lexicographically and then stably by length — a permutation of the input in
which shorter tags precede longer ones and equal-length tags are in
lexicographic order, so the rendering is deterministic. -/
theorem c8_tags_sorted (gates : List String) :
    sortedGates gates ~ gates ∧ (sortedGates gates).Pairwise lenLexLe := by
  constructor
  · exact (List.perm_insertionSort lenLe _).trans (List.perm_insertionSort lexLe gates)
  · have hslex : (gates.insertionSort lexLe).Pairwise lexLe :=
      List.sorted_insertionSort lexLe gates
    have hrlen : (sortedGates gates).Pairwise lenLe :=
      List.sorted_insertionSort lenLe (gates.insertionSort lexLe)
    rw [List.pairwise_iff_forall_sublist]
    intro a b hab
    have hl : lenLe a b := List.pairwise_iff_forall_sublist.mp hrlen hab
    rcases Nat.lt_or_eq_of_le hl with h | h
    · exact Or.inl h
    · refine Or.inr ⟨h, ?_⟩
      have hfab : [a, b].filter (fun x => x.length == b.length) = [a, b] := by
        simp [h]
      have h1 : [a, b]
          <+ ((gates.insertionSort lexLe).insertionSort lenLe).filter
            (fun x => x.length == b.length) := by
        have h2 := hab.filter (fun x => x.length == b.length)
        rwa [hfab] at h2
      rw [show ((gates.insertionSort lexLe).insertionSort lenLe)
          = sortedGates gates from rfl, sortedGates] at h1
      rw [filter_len_insertionSort] at h1
      have h3 : [a, b] <+ gates.insertionSort lexLe :=
        h1.trans (List.filter_sublist _)
      exact List.pairwise_iff_forall_sublist.mp hslex h3

end EasyIbmq
